import Mathlib

/-!
Verification of the falcon-marshmallow middleware layer
(`falcon_marshmallow/middleware.py`): a shallow embedding of the three
middleware classes (`JSONEnforcer`, `EmptyRequestDropper`, `Marshmallow`)
and of the shared body-stash helper `get_stashed_content`, together with
theorems about content negotiation, schema resolution, body caching and
error handling.

Python exceptions are modelled with `Except`: a raise returns
`.error (e, req)` carrying the request state at the moment of the raise
(in-place mutations done before the raise persist, as in Python).
External collaborators (the JSON codec, marshmallow schema objects) are
modelled as record-of-functions parameters, mirroring how the middleware
treats them as opaque.
-/

/-! ## String helpers: the Python `needle in haystack` substring test -/

def listPrefixOf : List Char → List Char → Bool
  | [], _ => true
  | _ :: _, [] => false
  | a :: as, b :: bs => a = b && listPrefixOf as bs

def listSubOf (needle : List Char) : List Char → Bool
  | [] => needle.isEmpty
  | c :: rest => listPrefixOf needle (c :: rest) || listSubOf needle rest

/-- Python `needle in hay` for strings: substring containment. -/
def strContains (hay needle : String) : Bool :=
  listSubOf needle.toList hay.toList

/-! ## Python values and the request model -/

/-- Values produced by JSON deserialization (and Python `None`). -/
inductive PyVal where
  | null
  | bool (b : Bool)
  | int (n : Int)
  | str (s : String)
  | list (xs : List PyVal)
  | dict (kvs : List (String × PyVal))
deriving Repr

/-- Values stored in the per-request context dict: Python `None`,
raw body bytes (from the stash), or parsed data. -/
inductive CtxVal where
  | pynone
  | bytes (b : List Nat)
  | data (d : PyVal)
deriving Repr

/-- Python truthiness for parsed-JSON values. -/
def PyVal.truthy : PyVal → Bool
  | .null => false
  | .bool b => b
  | .int n => decide (n ≠ 0)
  | .str s => !s.isEmpty
  | .list xs => !xs.isEmpty
  | .dict kvs => !kvs.isEmpty

/-- Python truthiness for context values (`not content` on line 125). -/
def CtxVal.truthy : CtxVal → Bool
  | .pynone => false
  | .bytes b => !b.isEmpty
  | .data d => d.truthy

/-- The request context: a mutable key-value bag (`req.context`). -/
abbrev Ctx := List (String × CtxVal)

/-- `req.context.get(key)` / `req.context[key]` lookup. -/
def ctxGet : Ctx → String → Option CtxVal
  | [], _ => none
  | (k, v) :: rest, key => if k = key then some v else ctxGet rest key

/-- `req.context[key] = v` assignment. -/
def ctxSet : Ctx → String → CtxVal → Ctx
  | [], key, v => [(key, v)]
  | (k, w) :: rest, key, v =>
    if k = key then (k, v) :: rest else (k, w) :: ctxSet rest key v

/-- `key in req.context` membership test. -/
def ctxMem (c : Ctx) (key : String) : Bool := (ctxGet c key).isSome

/-- Python `x is None` on the result of `dict.get`: true when the key is
absent or bound to `None`. -/
def pyIsNone : Option CtxVal → Bool
  | none => true
  | some .pynone => true
  | some _ => false

/-- The falcon request object, restricted to the fields the middleware
reads: method, declared content type and length, the accepts-JSON
predicate, the one-shot bounded body stream (with a read counter so that
"the stream is read at most once" is expressible), and the context. -/
structure Req where
  method : String
  contentType : Option String
  contentLength : Option Nat
  clientAcceptsJson : Bool
  streamBytes : List Nat
  streamReads : Nat
  context : Ctx
deriving Repr

/-! ## Error taxonomy -/

/-- The errors the middleware can raise: the falcon HTTP errors plus
Python `TypeError` (raised for non-instantiated schema attributes). -/
inductive HTTPErr where
  | notAcceptable (description : String)
  | unsupportedMediaType (description : String)
  | badRequest (description : String)
  | unprocessableEntity (description : String)
  | internalServerError (title : String) (description : String)
  | typeError (msg : String)
deriving Repr, DecidableEq

/-! ## External collaborators: JSON codec and marshmallow schemas -/

/-- Exceptions of the codec function `loads`: `UnicodeDecodeError` or
`JSONDecodeError` (a subclass of `ValueError`). -/
inductive DecodeErr where
  | unicodeDecodeError
  | jsonDecodeError
deriving Repr, DecidableEq

/-- A pluggable JSON codec (the `json_module` constructor argument,
`simplejson` by default): `loads` on body bytes may raise a decode
error; `dumps` on an arbitrary object may raise `TypeError`. -/
structure JsonModule where
  loads : List Nat → Except DecodeErr PyVal
  dumps : CtxVal → Except Unit String

/-- An instantiated marshmallow (2.x) schema: `load` and `dumps` both
return a `(data, errors)` pair, `errors` being a field-name-keyed map. -/
structure SchemaInst where
  load : PyVal → PyVal × List (String × PyVal)
  dumps : CtxVal → String × List (String × PyVal)

/-- A value found under a schema attribute of a resource: either an
instantiated `Schema` (satisfies `isinstance(sch, Schema)`) or any other
object, e.g. a schema class that was never instantiated. -/
inductive SchemaAttr where
  | inst (s : SchemaInst)
  | nonInst

/-- A resource (route handler) object: its attributes, looked up by
name via `getattr(resource, name, None)`. -/
structure Resource where
  attrs : List (String × SchemaAttr)

def attrsGet : List (String × SchemaAttr) → String → Option SchemaAttr
  | [], _ => none
  | (k, v) :: rest, name => if k = name then some v else attrsGet rest name

/-- `getattr(resource, name, None)`. -/
def getattr (r : Resource) (name : String) : Option SchemaAttr :=
  attrsGet r.attrs name

/-! ## Module constants (middleware.py lines 29-30) -/

def JSON_CONTENT_REQUIRED_METHODS : List String := ["POST", "PUT", "PATCH"]

def CONTENT_KEY : String := "content"

/-! ## get_stashed_content (middleware.py lines 33-51) -/

/-- `get_stashed_content(req)`: if the stash key is unset, read the
bounded stream (consuming it and bumping the read counter) and store the
bytes; return the stashed value. -/
def get_stashed_content (req : Req) : CtxVal × Req :=
  if pyIsNone (ctxGet req.context CONTENT_KEY) then
    let content := req.streamBytes
    let req' : Req := { req with
      streamBytes := []
      streamReads := req.streamReads + 1
      context := ctxSet req.context CONTENT_KEY (.bytes content) }
    (.bytes content, req')
  else
    ((ctxGet req.context CONTENT_KEY).getD .pynone, req)

/-! ## JSONEnforcer (middleware.py lines 54-99) -/

/-- `JSONEnforcer.__init__` stores the `required_methods` argument in
`self._methods`. -/
structure JSONEnforcer where
  _methods : List String

/-- `JSONEnforcer.process_request`. Note: line 91 of the source tests
`req.method in JSON_CONTENT_REQUIRED_METHODS` — the module constant —
not `self._methods`. -/
def JSONEnforcer.process_request (self : JSONEnforcer) (req : Req) :
    Except (HTTPErr × Req) Req :=
  if !req.clientAcceptsJson then
    .error (.notAcceptable
      "This server only supports responses encoded as JSON. Please update your \"Accept\" header to include \"application/json\".", req)
  else if JSON_CONTENT_REQUIRED_METHODS.contains req.method then
    match req.contentType with
    | none =>
      .error (.unsupportedMediaType
        (req.method ++ " requests must have \"application/json\" in their \"Content-Type\" header."), req)
    | some ct =>
      if !strContains ct "application/json" then
        .error (.unsupportedMediaType
          (req.method ++ " requests must have \"application/json\" in their \"Content-Type\" header."), req)
      else .ok req
  else .ok req

/-! ## EmptyRequestDropper (middleware.py lines 102-130) -/

/-- `EmptyRequestDropper.process_request`. -/
def EmptyRequestDropper.process_request (req : Req) :
    Except (HTTPErr × Req) Req :=
  if req.contentLength = none ∨ req.contentLength = some 0 then .ok req
  else
    let r := get_stashed_content req
    if !r.1.truthy then
      .error (.badRequest
        "Empty response body. A valid JSON document is required.", r.2)
    else .ok r.2

/-! ## Marshmallow (middleware.py lines 133-385) -/

/-- `Marshmallow.__init__` configuration: request key, response key,
force-JSON flag (the codec is passed separately to each method). -/
structure MarshmallowMW where
  _req_key : String
  _resp_key : String
  _force_json : Bool

/-- Python `str.lower` (ASCII, as used on HTTP method names). -/
def pyLower (s : String) : String := String.mk (s.data.map Char.toLower)

/-- `Marshmallow._get_specific_schema(resource, method, msg_type)`. -/
def Marshmallow._get_specific_schema (resource : Resource)
    (method msg_type : String) : Option SchemaAttr :=
  match getattr resource (pyLower method ++ "_" ++ msg_type ++ "_schema") with
  | some specific_schema => some specific_schema
  | none => getattr resource (pyLower method ++ "_schema")

/-- `Marshmallow._get_schema(resource, method, msg_type)`. -/
def Marshmallow._get_schema (resource : Resource)
    (method msg_type : String) : Option SchemaAttr :=
  match Marshmallow._get_specific_schema resource method msg_type with
  | some specific_schema => some specific_schema
  | none => getattr resource "schema"

/-- The message of the `TypeError` raised on lines 287 and 358. -/
def SCHEMA_TYPE_ERROR : String :=
  "The schema and <method>_schema properties of a resource must be instantiated Marshmallow schemas."

/-! A model of `simplejson.dumps` (default separators), used for the
error-map descriptions; the codec internals are an external
collaborator, so this is a faithful shape, not a byte-exact port. -/

mutual
def jsonDumps : PyVal → String
  | .null => "null"
  | .bool b => cond b "true" "false"
  | .int n => toString n
  | .str s => "\"" ++ s ++ "\""
  | .list xs => "[" ++ dumpList xs ++ "]"
  | .dict kvs => "\x7b" ++ dumpPairs kvs ++ "\x7d"

def dumpList : List PyVal → String
  | [] => ""
  | x :: rest =>
    jsonDumps x ++ (if rest.isEmpty then "" else ", ") ++ dumpList rest

def dumpPairs : List (String × PyVal) → String
  | [] => ""
  | (k, v) :: rest =>
    "\"" ++ k ++ "\": " ++ jsonDumps v ++
      (if rest.isEmpty then "" else ", ") ++ dumpPairs rest
end

/-- `Marshmallow.process_resource(req, resp, resource, params)`
(lines 251-321). -/
def Marshmallow.process_resource (self : MarshmallowMW) (jm : JsonModule)
    (req : Req) (resource : Resource) : Except (HTTPErr × Req) Req :=
  if req.contentLength = none ∨ req.contentLength = some 0 then .ok req
  else
    match Marshmallow._get_schema resource req.method "request" with
    | some .nonInst => .error (.typeError SCHEMA_TYPE_ERROR, req)
    | some (.inst sch) =>
      let r := get_stashed_content req
      match r.1 with
      | .bytes bs =>
        match jm.loads bs with
        | .error .unicodeDecodeError =>
          .error (.badRequest "Body was not encoded as UTF-8", r.2)
        | .error .jsonDecodeError =>
          .error (.badRequest "Request must be valid JSON", r.2)
        | .ok parsed =>
          let le := sch.load parsed
          if !le.2.isEmpty then
            match jm.dumps (.data (.dict le.2)) with
            | .ok desc => .error (.unprocessableEntity desc, r.2)
            | .error _ =>
              .error (.typeError "Object is not JSON serializable", r.2)
          else
            .ok { r.2 with context := ctxSet r.2.context self._req_key (.data le.1) }
      | _ =>
        .error (.typeError "the JSON object must be str or bytes", r.2)
    | none =>
      if self._force_json then
        let r := get_stashed_content req
        match r.1 with
        | .bytes bs =>
          match jm.loads bs with
          | .error _ =>
            .error (.badRequest
              "Could not decode the request body, either because it was not valid JSON or because it was not encoded as UTF-8.", r.2)
          | .ok v =>
            .ok { r.2 with context := ctxSet r.2.context self._req_key (.data v) }
        | _ =>
          .error (.typeError "the JSON object must be str or bytes", r.2)
      else .ok req

/-- `Marshmallow.process_response(req, resp, resource, req_succeeded)`
(lines 323-385); the response body is modelled as the extra
`Option String` component. -/
def Marshmallow.process_response (self : MarshmallowMW) (jm : JsonModule)
    (req : Req) (respBody : Option String) (resource : Resource) :
    Except (HTTPErr × Req) (Req × Option String) :=
  if !ctxMem req.context self._resp_key then .ok (req, respBody)
  else
    match Marshmallow._get_schema resource req.method "response" with
    | some .nonInst => .error (.typeError SCHEMA_TYPE_ERROR, req)
    | some (.inst sch) =>
      let de := sch.dumps ((ctxGet req.context self._resp_key).getD .pynone)
      if !de.2.isEmpty then
        .error (.internalServerError "Could not serialize response"
          (jsonDumps (.dict de.2)), req)
      else .ok (req, some de.1)
    | none =>
      if self._force_json then
        match jm.dumps ((ctxGet req.context self._resp_key).getD .pynone) with
        | .ok s => .ok (req, some s)
        | .error _ =>
          .error (.internalServerError "Could not serialize response"
            "The server attempted to serialize an object that cannot be serialized. This is likely a server-side bug.", req)
      else .ok (req, respBody)

/-! ## Helper lemmas about the context dict and the body stash -/

theorem ctxGet_ctxSet_self (c : Ctx) (k : String) (v : CtxVal) :
    ctxGet (ctxSet c k v) k = some v := by
  induction c with
  | nil => simp [ctxSet, ctxGet]
  | cons hd tl ih =>
    obtain ⟨k', w⟩ := hd
    by_cases h : k' = k <;> simp [ctxSet, ctxGet, h, ih]

theorem ctxGet_ctxSet_ne (c : Ctx) (k k' : String) (v : CtxVal)
    (h : k' ≠ k) : ctxGet (ctxSet c k v) k' = ctxGet c k' := by
  have h2 : ¬(k = k') := fun e => h e.symm
  induction c with
  | nil => simp [ctxSet, ctxGet, h2]
  | cons hd tl ih =>
    obtain ⟨k'', w⟩ := hd
    by_cases hk : k'' = k
    · subst hk
      simp [ctxSet, ctxGet, h2]
    · simp [ctxSet, ctxGet, hk, ih]

/-- `get_stashed_content` only ever writes the stash key: every other
context key is left untouched. -/
theorem stash_preserves_other_keys (req : Req) (k : String)
    (h : k ≠ CONTENT_KEY) :
    ctxGet (get_stashed_content req).2.context k = ctxGet req.context k := by
  unfold get_stashed_content
  split
  · exact ctxGet_ctxSet_ne _ _ _ _ h
  · rfl

/-! ## C1: the enforcer and its configured method set -/

def reqC1post : Req :=
  { method := "POST", contentType := none, contentLength := some 2
    clientAcceptsJson := true, streamBytes := [123, 125], streamReads := 0
    context := [] }

def reqC1delete : Req :=
  { method := "DELETE", contentType := none, contentLength := some 2
    clientAcceptsJson := true, streamBytes := [123, 125], streamReads := 0
    context := [] }

/-- C1: the claim says `process_request` checks the content type exactly
for the methods in the configured set `R`. The code instead tests
membership in the module constant `JSON_CONTENT_REQUIRED_METHODS`,
ignoring `self._methods`: with `R = ["DELETE"]`, a JSON-less POST (not
in `R`) is rejected with `UnsupportedMediaType`, while a JSON-less
DELETE (in `R`) passes unchecked. -/
theorem c1_enforcer_ignores_configured_methods :
    (JSONEnforcer.mk ["DELETE"]).process_request reqC1post =
      .error (.unsupportedMediaType
        "POST requests must have \"application/json\" in their \"Content-Type\" header.",
        reqC1post)
    ∧ (JSONEnforcer.mk ["DELETE"]).process_request reqC1delete = .ok reqC1delete := by
  constructor <;> rfl

/-! ## C2: schema resolution precedence and case-insensitivity -/

/-- The resolution order as the spec states it: first
`<lower m>_<t>_schema`, then `<lower m>_schema`, then `schema`,
else none. -/
def specSchemaResolution (r : Resource) (m t : String) : Option SchemaAttr :=
  match getattr r (pyLower m ++ "_" ++ t ++ "_schema") with
  | some s => some s
  | none =>
    match getattr r (pyLower m ++ "_schema") with
    | some s => some s
    | none => getattr r "schema"

/-- C2: `_get_schema` returns the first non-None attribute among
`lower(m)_t_schema`, `lower(m)_schema`, `schema` (and none when all
three are absent), and the result depends on the method only through
its lower-casing. -/
theorem c2_schema_resolution (r : Resource) (m m' t : String)
    (h : pyLower m = pyLower m') :
    Marshmallow._get_schema r m t = specSchemaResolution r m t
    ∧ Marshmallow._get_schema r m t = Marshmallow._get_schema r m' t := by
  unfold Marshmallow._get_schema Marshmallow._get_specific_schema
    specSchemaResolution
  rw [h]
  constructor
  · cases getattr r (pyLower m' ++ "_" ++ t ++ "_schema") <;>
      cases getattr r (pyLower m' ++ "_schema") <;> rfl
  · rfl

def schemaOkC2 : SchemaInst :=
  { load := fun p => (p, []), dumps := fun _ => ("", []) }

def resourceC2 : Resource :=
  { attrs := [("post_schema", .inst schemaOkC2), ("schema", .nonInst)] }

theorem c2_schema_resolution_witness :
    Marshmallow._get_schema resourceC2 "PoSt" "request" =
      specSchemaResolution resourceC2 "PoSt" "request"
    ∧ Marshmallow._get_schema resourceC2 "PoSt" "request" =
      Marshmallow._get_schema resourceC2 "POST" "request" :=
  c2_schema_resolution resourceC2 "PoSt" "POST" "request" (by decide)

/-! ## C3: the body stream is read at most once -/

/-- C3: when the stash is unset, `get_stashed_content` reads the stream
once, caches the bytes under `"content"` and returns them; when it is
set, the request is returned unchanged with no further read; and a
repeated call after any call returns the same cached value without
changing the request state again. -/
theorem c3_stash_reads_stream_at_most_once (req : Req) :
    (pyIsNone (ctxGet req.context CONTENT_KEY) = true →
      (get_stashed_content req).1 = .bytes req.streamBytes
      ∧ (get_stashed_content req).2.streamReads = req.streamReads + 1
      ∧ ctxGet (get_stashed_content req).2.context CONTENT_KEY =
          some (.bytes req.streamBytes))
    ∧ (pyIsNone (ctxGet req.context CONTENT_KEY) = false →
      (get_stashed_content req).2 = req)
    ∧ get_stashed_content (get_stashed_content req).2 =
        ((get_stashed_content req).1, (get_stashed_content req).2) := by
  refine ⟨fun h => ?_, fun h => ?_, ?_⟩
  · unfold get_stashed_content
    rw [if_pos h]
    exact ⟨rfl, rfl, ctxGet_ctxSet_self _ _ _⟩
  · unfold get_stashed_content
    rw [if_neg (by simp [h])]
  · by_cases h : pyIsNone (ctxGet req.context CONTENT_KEY) = true
    · have hpair : get_stashed_content req =
          (.bytes req.streamBytes,
           { req with
             streamBytes := []
             streamReads := req.streamReads + 1
             context := ctxSet req.context CONTENT_KEY
               (.bytes req.streamBytes) }) := by
        unfold get_stashed_content
        rw [if_pos h]
      rw [hpair]
      simp [get_stashed_content, ctxGet_ctxSet_self, pyIsNone]
    · have hget : (get_stashed_content req).2 = req := by
        unfold get_stashed_content
        rw [if_neg h]
      have h1 : (get_stashed_content req).1 =
          (ctxGet req.context CONTENT_KEY).getD .pynone := by
        unfold get_stashed_content
        rw [if_neg h]
      rw [hget, h1]
      unfold get_stashed_content
      rw [if_neg h]

def reqC3 : Req :=
  { method := "POST", contentType := some "application/json"
    contentLength := some 2, clientAcceptsJson := true
    streamBytes := [55, 56], streamReads := 0, context := [] }

theorem c3_stash_witness :
    (get_stashed_content reqC3).1 = .bytes [55, 56]
    ∧ (get_stashed_content reqC3).2.streamReads = 1
    ∧ get_stashed_content (get_stashed_content reqC3).2 =
        ((get_stashed_content reqC3).1, (get_stashed_content reqC3).2) :=
  ⟨((c3_stash_reads_stream_at_most_once reqC3).1 rfl).1,
   ((c3_stash_reads_stream_at_most_once reqC3).1 rfl).2.1,
   (c3_stash_reads_stream_at_most_once reqC3).2.2⟩

/-! ## C6: zero/absent content length is a pure pass-through -/

/-- C6: with content length `None` or `0`, both the dropper and the
dispatcher return the request completely unchanged (so neither the
stream, the read counter, nor the context is touched) and raise
nothing. -/
theorem c6_no_content_passthrough (mw : MarshmallowMW) (jm : JsonModule)
    (req : Req) (resource : Resource)
    (h : req.contentLength = none ∨ req.contentLength = some 0) :
    EmptyRequestDropper.process_request req = .ok req
    ∧ Marshmallow.process_resource mw jm req resource = .ok req := by
  constructor
  · unfold EmptyRequestDropper.process_request
    rw [if_pos h]
  · unfold Marshmallow.process_resource
    rw [if_pos h]

def mwDefault : MarshmallowMW :=
  { _req_key := "json", _resp_key := "result", _force_json := true }

/-- A model `dumps` for concrete codec instances: serializable for
parsed data and `None`, a `TypeError` for raw bytes. -/
def cvDumps : CtxVal → Except Unit String
  | .data d => .ok (jsonDumps d)
  | .pynone => .ok "null"
  | .bytes _ => .error ()

def jmFail : JsonModule :=
  { loads := fun _ => .error .jsonDecodeError, dumps := cvDumps }

def reqC6 : Req :=
  { method := "GET", contentType := none, contentLength := none
    clientAcceptsJson := true, streamBytes := [], streamReads := 0
    context := [] }

theorem c6_no_content_passthrough_witness :
    (reqC6.contentLength = none ∨ reqC6.contentLength = some 0)
    ∧ EmptyRequestDropper.process_request reqC6 = .ok reqC6
    ∧ Marshmallow.process_resource mwDefault jmFail reqC6 (Resource.mk []) = .ok reqC6 :=
  ⟨Or.inl rfl,
   (c6_no_content_passthrough mwDefault jmFail reqC6 (Resource.mk []) (Or.inl rfl)).1,
   (c6_no_content_passthrough mwDefault jmFail reqC6 (Resource.mk []) (Or.inl rfl)).2⟩

/-! ## C8: a client that does not accept JSON is always rejected -/

/-- C8: whenever the accepts-JSON predicate is false, `process_request`
raises `NotAcceptable`, whatever methods the enforcer was configured with, the
request method or the content type. -/
theorem c8_not_acceptable (self : JSONEnforcer) (req : Req)
    (h : req.clientAcceptsJson = false) :
    self.process_request req =
      .error (.notAcceptable
        "This server only supports responses encoded as JSON. Please update your \"Accept\" header to include \"application/json\".",
        req) := by
  unfold JSONEnforcer.process_request
  rw [h]
  rfl

def reqC8 : Req :=
  { method := "GET", contentType := some "application/json"
    contentLength := none, clientAcceptsJson := false
    streamBytes := [], streamReads := 0, context := [] }

theorem c8_not_acceptable_witness :
    reqC8.clientAcceptsJson = false
    ∧ (JSONEnforcer.mk ["POST", "PUT", "PATCH"]).process_request reqC8 =
      .error (.notAcceptable
        "This server only supports responses encoded as JSON. Please update your \"Accept\" header to include \"application/json\".",
        reqC8) :=
  ⟨rfl, c8_not_acceptable (JSONEnforcer.mk ["POST", "PUT", "PATCH"]) reqC8 rfl⟩

/-! ## C4: non-instantiated schema attributes raise TypeError -/

/-- C4: when schema resolution yields a value that is not an
instantiated schema, both `process_resource` (inbound, before any load)
and `process_response` (outbound, before any dump) raise a `TypeError`
carrying the original request state untouched, and that error is a
different constructor from `UnprocessableEntity` and
`InternalServerError`. -/
theorem c4_non_instance_schema_type_error (mw : MarshmallowMW)
    (jm : JsonModule) (req : Req) (resource : Resource)
    (respBody : Option String)
    (hlen : ¬(req.contentLength = none ∨ req.contentLength = some 0))
    (hmem : ctxMem req.context mw._resp_key = true)
    (hreq : Marshmallow._get_schema resource req.method "request" =
      some .nonInst)
    (hresp : Marshmallow._get_schema resource req.method "response" =
      some .nonInst) :
    Marshmallow.process_resource mw jm req resource =
      .error (.typeError SCHEMA_TYPE_ERROR, req)
    ∧ Marshmallow.process_response mw jm req respBody resource =
      .error (.typeError SCHEMA_TYPE_ERROR, req)
    ∧ (∀ d, HTTPErr.typeError SCHEMA_TYPE_ERROR ≠ .unprocessableEntity d)
    ∧ (∀ t d, HTTPErr.typeError SCHEMA_TYPE_ERROR ≠
        .internalServerError t d) := by
  refine ⟨?_, ?_, fun d => by simp, fun t d => by simp⟩
  · unfold Marshmallow.process_resource
    rw [if_neg hlen, hreq]
  · unfold Marshmallow.process_response
    rw [hmem, hresp]
    rfl

def resourceC4 : Resource := { attrs := [("schema", .nonInst)] }

def reqC4 : Req :=
  { method := "POST", contentType := some "application/json"
    contentLength := some 2, clientAcceptsJson := true
    streamBytes := [52, 53], streamReads := 0
    context := [("result", .data .null)] }

theorem c4_non_instance_schema_type_error_witness :
    Marshmallow.process_resource mwDefault jmFail reqC4 resourceC4 =
      .error (.typeError SCHEMA_TYPE_ERROR, reqC4)
    ∧ Marshmallow.process_response mwDefault jmFail reqC4 none resourceC4 =
      .error (.typeError SCHEMA_TYPE_ERROR, reqC4) :=
  ⟨(c4_non_instance_schema_type_error mwDefault jmFail reqC4 resourceC4 none
      (by decide) rfl rfl rfl).1,
   (c4_non_instance_schema_type_error mwDefault jmFail reqC4 resourceC4 none
      (by decide) rfl rfl rfl).2.1⟩

/-! ## C7: declared content but empty actual body -/

/-- C7: with a non-zero declared content length, the dropper raises
`BadRequest` exactly when the body obtained through the shared stash is
empty; a non-empty body passes through unraised. -/
theorem c7_empty_body_bad_request (req : Req) (bs : List Nat)
    (hlen : ¬(req.contentLength = none ∨ req.contentLength = some 0))
    (hbody : (get_stashed_content req).1 = .bytes bs) :
    (bs = [] →
      EmptyRequestDropper.process_request req =
        .error (.badRequest
          "Empty response body. A valid JSON document is required.",
          (get_stashed_content req).2))
    ∧ (bs ≠ [] →
      EmptyRequestDropper.process_request req =
        .ok (get_stashed_content req).2) := by
  constructor
  · intro hb
    have ht : (get_stashed_content req).1.truthy = false := by
      rw [hbody, hb]; rfl
    unfold EmptyRequestDropper.process_request
    rw [if_neg hlen]
    simp [ht]
  · intro hb
    have ht : (get_stashed_content req).1.truthy = true := by
      rw [hbody]; simp [CtxVal.truthy, hb]
    unfold EmptyRequestDropper.process_request
    rw [if_neg hlen]
    simp [ht]

def reqC7 : Req :=
  { method := "POST", contentType := some "application/json"
    contentLength := some 5, clientAcceptsJson := true
    streamBytes := [], streamReads := 0, context := [] }

theorem c7_empty_body_bad_request_witness :
    EmptyRequestDropper.process_request reqC7 =
      .error (.badRequest
        "Empty response body. A valid JSON document is required.",
        (get_stashed_content reqC7).2) :=
  (c7_empty_body_bad_request reqC7 [] (by decide) rfl).1 rfl

/-! ## C9: no schema and force-JSON off is a strict no-op -/

/-- C9: with non-zero content length, no resolvable schema and
`force_json` disabled, `process_resource` returns the request fully
unchanged — no context key is written (neither the request key nor the
stash key) and the stream is not read. -/
theorem c9_no_schema_no_force_is_noop (mw : MarshmallowMW)
    (jm : JsonModule) (req : Req) (resource : Resource)
    (hlen : ¬(req.contentLength = none ∨ req.contentLength = some 0))
    (hsch : Marshmallow._get_schema resource req.method "request" = none)
    (hforce : mw._force_json = false) :
    Marshmallow.process_resource mw jm req resource = .ok req := by
  unfold Marshmallow.process_resource
  rw [if_neg hlen, hsch, hforce]
  rfl

def mwNoForce : MarshmallowMW :=
  { _req_key := "json", _resp_key := "result", _force_json := false }

def resourceEmpty : Resource := { attrs := [] }

def reqC9 : Req :=
  { method := "POST", contentType := some "application/json"
    contentLength := some 2, clientAcceptsJson := true
    streamBytes := [52, 53], streamReads := 0, context := [] }

theorem c9_no_schema_no_force_is_noop_witness :
    Marshmallow.process_resource mwNoForce jmFail reqC9 resourceEmpty =
      .ok reqC9 :=
  c9_no_schema_no_force_is_noop mwNoForce jmFail reqC9 resourceEmpty
    (by decide) rfl rfl

/-! ## Substring lemmas for the error-map descriptions -/

theorem listPrefixOf_self_append (n t : List Char) :
    listPrefixOf n (n ++ t) = true := by
  induction n with
  | nil => rfl
  | cons a as ih => simp [listPrefixOf, ih]

theorem listSubOf_nil_needle (h : List Char) : listSubOf [] h = true := by
  cases h <;> rfl

theorem listSubOf_cons (n : List Char) (c : Char) (h : List Char)
    (hs : listSubOf n h = true) : listSubOf n (c :: h) = true := by
  unfold listSubOf
  simp [hs]

theorem listSubOf_append_left (n pre h : List Char)
    (hs : listSubOf n h = true) : listSubOf n (pre ++ h) = true := by
  induction pre with
  | nil => simpa
  | cons c cs ih => exact listSubOf_cons _ _ _ ih

theorem listSubOf_self_append (n t : List Char) :
    listSubOf n (n ++ t) = true := by
  cases n with
  | nil => exact listSubOf_nil_needle t
  | cons a as => simp [listSubOf, listPrefixOf, listPrefixOf_self_append]

/-- A string occurs in any extension of itself to the right. -/
theorem strContains_self_append (n t : String) : strContains (n ++ t) n = true := by
  unfold strContains
  have h : (n ++ t).toList = n.toList ++ t.toList := by
    simp [String.toList, String.data_append]
  rw [h]
  exact listSubOf_self_append _ _

/-- Substring containment survives prepending. -/
theorem strContains_left_extend (s t n : String)
    (h : strContains t n = true) : strContains (s ++ t) n = true := by
  unfold strContains at h ⊢
  have h2 : (s ++ t).toList = s.toList ++ t.toList := by
    simp [String.toList, String.data_append]
  rw [h2]
  exact listSubOf_append_left _ _ _ h

theorem listPrefixOf_mono_right (n h t : List Char)
    (hp : listPrefixOf n h = true) : listPrefixOf n (h ++ t) = true := by
  induction n generalizing h with
  | nil => rfl
  | cons a as ih =>
    cases h with
    | nil => exact absurd hp (by simp [listPrefixOf])
    | cons b bs =>
      simp only [listPrefixOf, Bool.and_eq_true, decide_eq_true_eq] at hp
      simp [listPrefixOf, hp.1, ih bs hp.2]

theorem listSubOf_mono_right (n h t : List Char)
    (hs : listSubOf n h = true) : listSubOf n (h ++ t) = true := by
  induction h with
  | nil =>
    have : n = [] := by
      cases n with
      | nil => rfl
      | cons a as => exact absurd hs (by simp [listSubOf, List.isEmpty])
    subst this
    exact listSubOf_nil_needle t
  | cons c cs ih =>
    simp only [listSubOf, Bool.or_eq_true] at hs
    rcases hs with hp | hsub
    · have := listPrefixOf_mono_right n (c :: cs) t hp
      simp only [List.cons_append] at this
      simp [listSubOf, this]
    · have := ih hsub
      simp only [List.cons_append]
      exact listSubOf_cons _ _ _ this

/-- Substring containment survives appending. -/
theorem strContains_right_extend (s t n : String)
    (h : strContains s n = true) : strContains (s ++ t) n = true := by
  unfold strContains at h ⊢
  have h2 : (s ++ t).toList = s.toList ++ t.toList := by
    simp [String.toList, String.data_append]
  rw [h2]
  exact listSubOf_mono_right _ _ _ h

/-- Every key of a serialized error map appears, quoted, in the output
of `dumpPairs`. -/
theorem dumpPairs_contains_key (kvs : List (String × PyVal)) (k : String)
    (v : PyVal) (hmem : (k, v) ∈ kvs) :
    strContains (dumpPairs kvs) ("\"" ++ k ++ "\"") = true := by
  induction kvs with
  | nil => cases hmem
  | cons hd tl ih =>
    obtain ⟨k', v'⟩ := hd
    have hdp : dumpPairs ((k', v') :: tl) =
        "\"" ++ k' ++ "\": " ++ jsonDumps v' ++
          (if tl.isEmpty then "" else ", ") ++ dumpPairs tl := by
      rw [dumpPairs]
    rcases List.mem_cons.mp hmem with heq | hmem'
    · rw [Prod.mk.injEq] at heq
      obtain ⟨h1, h2⟩ := heq
      subst h1
      subst h2
      rw [hdp, show ("\": " : String) = "\"" ++ ": " from rfl]
      have h3 := strContains_self_append ("\"" ++ k ++ "\"")
        (": " ++ jsonDumps v ++ (if tl.isEmpty then "" else ", ") ++
          dumpPairs tl)
      simp only [String.append_assoc] at h3 ⊢
      exact h3
    · rw [hdp]
      exact strContains_left_extend
        ("\"" ++ k' ++ "\": " ++ jsonDumps v' ++
          (if tl.isEmpty then "" else ", "))
        (dumpPairs tl) _ (ih hmem')

/-- Every key of an error map appears, quoted, in the serialized dict. -/
theorem jsonDumps_dict_contains_key (kvs : List (String × PyVal))
    (k : String) (v : PyVal) (hmem : (k, v) ∈ kvs) :
    strContains (jsonDumps (.dict kvs)) ("\"" ++ k ++ "\"") = true := by
  have h : jsonDumps (.dict kvs) = "\x7b" ++ dumpPairs kvs ++ "\x7d" := by
    rw [jsonDumps]
  rw [h, String.append_assoc]
  exact strContains_left_extend _ _ _
    (strContains_right_extend _ _ _ (dumpPairs_contains_key kvs k v hmem))

/-! ## C5: schema validation errors and successful loads -/

/-- C5: with a resolved request schema and a body the codec parses
successfully, a load with field errors raises `UnprocessableEntity`
whose description is the serialized error map — every offending field
name appears quoted in it — while an error-free load stores the
deserialized object under the configured request key. -/
theorem c5_load_validation (mw : MarshmallowMW)
    (L : List Nat → Except DecodeErr PyVal) (req : Req)
    (resource : Resource) (sch : SchemaInst) (bs : List Nat)
    (parsed : PyVal)
    (hlen : ¬(req.contentLength = none ∨ req.contentLength = some 0))
    (hsch : Marshmallow._get_schema resource req.method "request" =
      some (.inst sch))
    (hbody : (get_stashed_content req).1 = .bytes bs)
    (hparse : L bs = .ok parsed) :
    ((sch.load parsed).2 ≠ [] →
      Marshmallow.process_resource mw ⟨L, cvDumps⟩ req resource =
        .error (.unprocessableEntity
          (jsonDumps (.dict (sch.load parsed).2)),
          (get_stashed_content req).2)
      ∧ ∀ kv ∈ (sch.load parsed).2,
          strContains (jsonDumps (.dict (sch.load parsed).2))
            ("\"" ++ kv.1 ++ "\"") = true)
    ∧ ((sch.load parsed).2 = [] →
      Marshmallow.process_resource mw ⟨L, cvDumps⟩ req resource =
        .ok { (get_stashed_content req).2 with
          context := ctxSet (get_stashed_content req).2.context mw._req_key
            (.data (sch.load parsed).1) }) := by
  have hrun : Marshmallow.process_resource mw ⟨L, cvDumps⟩ req resource =
      (if !(sch.load parsed).2.isEmpty then
        .error (.unprocessableEntity
          (jsonDumps (.dict (sch.load parsed).2)),
          (get_stashed_content req).2)
      else
        .ok { (get_stashed_content req).2 with
          context := ctxSet (get_stashed_content req).2.context mw._req_key
            (.data (sch.load parsed).1) }) := by
    unfold Marshmallow.process_resource
    rw [if_neg hlen, hsch]
    simp only [hbody, hparse, cvDumps]
  constructor
  · intro hne
    have hie : (sch.load parsed).2.isEmpty = false := by
      cases h : (sch.load parsed).2 with
      | nil => exact absurd h hne
      | cons a l => rfl
    rw [hrun, hie]
    refine ⟨rfl, fun kv hkv => ?_⟩
    exact jsonDumps_dict_contains_key _ kv.1 kv.2 hkv
  · intro hemp
    rw [hrun, hemp]
    rfl

def schemaC5 : SchemaInst :=
  { load := fun _ => (.null, [("age", .list [.str "Not a valid integer."])])
    dumps := fun _ => ("", []) }

def resourceC5 : Resource := { attrs := [("schema", .inst schemaC5)] }

def reqC5 : Req :=
  { method := "POST", contentType := some "application/json"
    contentLength := some 3, clientAcceptsJson := true
    streamBytes := [49, 50, 51], streamReads := 0, context := [] }

def loadsC5 : List Nat → Except DecodeErr PyVal :=
  fun _ => .ok (.dict [("age", .str "x")])

theorem c5_load_validation_witness :
    Marshmallow.process_resource mwDefault ⟨loadsC5, cvDumps⟩ reqC5 resourceC5 =
      .error (.unprocessableEntity
        (jsonDumps (.dict [("age", .list [.str "Not a valid integer."])])),
        (get_stashed_content reqC5).2)
    ∧ strContains
        (jsonDumps (.dict [("age", .list [.str "Not a valid integer."])]))
        ("\"" ++ "age" ++ "\"") = true :=
  ⟨((c5_load_validation mwDefault loadsC5 reqC5 resourceC5 schemaC5
      [49, 50, 51] (.dict [("age", .str "x")]) (by decide) rfl rfl rfl).1
      (by simp [schemaC5])).1,
   ((c5_load_validation mwDefault loadsC5 reqC5 resourceC5 schemaC5
      [49, 50, 51] (.dict [("age", .str "x")]) (by decide) rfl rfl rfl).1
      (by simp [schemaC5])).2
      ("age", .list [.str "Not a valid integer."]) (by simp [schemaC5])⟩

/-! ## C10: error terminations and the configured request key -/

def mwContentKey : MarshmallowMW :=
  { _req_key := "content", _resp_key := "result", _force_json := true }

def reqC10 : Req :=
  { method := "POST", contentType := some "application/json"
    contentLength := some 1, clientAcceptsJson := true
    streamBytes := [123], streamReads := 0, context := [] }

def reqC10' : Req :=
  { method := "POST", contentType := some "application/json"
    contentLength := some 1, clientAcceptsJson := true
    streamBytes := [], streamReads := 1
    context := [("content", .bytes [123])] }

/-- C10 counterexample: configure the request key as `"content"` — the
body-stash key. A `process_resource` call that ends in `BadRequest`
(undecodable body) has already stashed the raw bytes under that very
key, so the entry under the configured request key went from absent to
set although the call raised: the claim as stated is false. -/
theorem c10_counterexample_req_key_content :
    Marshmallow.process_resource mwContentKey jmFail reqC10 resourceEmpty =
      .error (.badRequest
        "Could not decode the request body, either because it was not valid JSON or because it was not encoded as UTF-8.",
        reqC10')
    ∧ ctxGet reqC10'.context mwContentKey._req_key ≠
      ctxGet reqC10.context mwContentKey._req_key := by
  constructor
  · rfl
  · simp [ctxGet, reqC10, reqC10', mwContentKey]

/-- C10 (amended): provided the configured request key differs from the
body-stash key `"content"`, every error termination of
`process_resource` (type error, `BadRequest`, `UnprocessableEntity`)
leaves the context entry under the request key exactly as it was before
the call. -/
theorem c10_error_leaves_req_key_unchanged (mw : MarshmallowMW)
    (jm : JsonModule) (req : Req) (resource : Resource) (e : HTTPErr)
    (req' : Req) (hkey : mw._req_key ≠ CONTENT_KEY)
    (h : Marshmallow.process_resource mw jm req resource =
      .error (e, req')) :
    ctxGet req'.context mw._req_key = ctxGet req.context mw._req_key := by
  unfold Marshmallow.process_resource at h
  split at h
  · exact absurd h (by simp)
  · split at h
    · simp only [Except.error.injEq, Prod.mk.injEq] at h
      rw [← h.2]
    · simp only [] at h
      split at h
      · split at h
        · simp only [Except.error.injEq, Prod.mk.injEq] at h
          rw [← h.2]
          exact stash_preserves_other_keys req mw._req_key hkey
        · simp only [Except.error.injEq, Prod.mk.injEq] at h
          rw [← h.2]
          exact stash_preserves_other_keys req mw._req_key hkey
        · split at h
          · split at h
            · simp only [Except.error.injEq, Prod.mk.injEq] at h
              rw [← h.2]
              exact stash_preserves_other_keys req mw._req_key hkey
            · simp only [Except.error.injEq, Prod.mk.injEq] at h
              rw [← h.2]
              exact stash_preserves_other_keys req mw._req_key hkey
          · exact absurd h (by simp)
      · simp only [Except.error.injEq, Prod.mk.injEq] at h
        rw [← h.2]
        exact stash_preserves_other_keys req mw._req_key hkey
    · split at h
      · simp only [] at h
        split at h
        · split at h
          · simp only [Except.error.injEq, Prod.mk.injEq] at h
            rw [← h.2]
            exact stash_preserves_other_keys req mw._req_key hkey
          · exact absurd h (by simp)
        · simp only [Except.error.injEq, Prod.mk.injEq] at h
          rw [← h.2]
          exact stash_preserves_other_keys req mw._req_key hkey
      · exact absurd h (by simp)

theorem c10_error_leaves_req_key_unchanged_witness :
    ctxGet reqC10'.context mwDefault._req_key =
      ctxGet reqC10.context mwDefault._req_key :=
  c10_error_leaves_req_key_unchanged mwDefault jmFail reqC10 resourceEmpty
    (.badRequest
      "Could not decode the request body, either because it was not valid JSON or because it was not encoded as UTF-8.")
    reqC10' (by decide) rfl
